import Mathlib

/-!
Verification of the kops asset supply-chain subsystem: the containerd version
resolver (`upup/pkg/fi/cloudup/containerd.go`) and the boot-time verified
fetcher (`download-or-bust` in the nodeup bootstrap script).

The resolver calls `github.com/blang/semver/v4`; its tolerant parser and
comparison are embedded first, translated from that library's `ParseTolerant`,
`Parse`, `NewPRVersion` and `Compare`.
-/

namespace KopsAssets

/-! ## Embedding of blang/semver v4 -/

/-- Go `unicode.IsSpace` restricted to the whitespace characters that can occur
in ASCII/Latin-1 version strings (the higher Unicode space points are not
modelled; no table key or claim input contains them). -/
def goIsSpace (c : Char) : Bool :=
  c = ' ' || c = '\t' || c = '\n' || c = '\r' ||
  c = '\x0b' || c = '\x0c' || c = '\x85' || c = '\xa0'

/-- `strings.TrimSpace` on a character list. -/
def trimSpaceChars (l : List Char) : List Char :=
  ((l.dropWhile goIsSpace).reverse.dropWhile goIsSpace).reverse

/-- `strings.Split(s, ".")`: split at every dot; `Split("") = [""]`. -/
def splitDotAll : List Char → List (List Char)
  | [] => [[]]
  | c :: rest =>
    let r := splitDotAll rest
    if c = '.' then [] :: r
    else
      match r with
      | [] => [[c]]
      | h :: t => (c :: h) :: t

/-- `strings.Join(parts, ".")` on character lists. -/
def joinDots : List (List Char) → List Char
  | [] => []
  | [p] => p
  | p :: rest => p ++ '.' :: joinDots rest

/-- `strings.SplitN(s, ".", 3)`: at most three parts, the third keeps its dots. -/
def splitN3 (l : List Char) : List (List Char) :=
  match splitDotAll l with
  | [] => []
  | [a] => [a]
  | [a, b] => [a, b]
  | a :: b :: rest => [a, b, joinDots rest]

/-- `strings.TrimLeft(s, "0")`. -/
def trimLeadZeros : List Char → List Char
  | '0' :: rest => trimLeadZeros rest
  | l => l

/-- The alphabet `alphas` of blang/semver: ASCII letters and the hyphen. -/
def isAlphaGo (c : Char) : Bool :=
  ('a' ≤ c && c ≤ 'z') || ('A' ≤ c && c ≤ 'Z') || c = '-'

/-- The alphabet `alphanum` of blang/semver. -/
def isAlphanumGo (c : Char) : Bool :=
  isAlphaGo c || c.isDigit

/-- `hasLeadingZeroes`: length above one and a leading `0`. -/
def leadZero : List Char → Bool
  | '0' :: _ :: _ => true
  | _ => false

/-- `strconv.ParseUint(s, 10, 64)`: empty input and overflow beyond 64 bits
are errors; the numeric value is returned as a `Nat`. -/
def parseNatChars (l : List Char) : Option Nat :=
  match l with
  | [] => none
  | _ =>
    let n := l.foldl (fun acc c => acc * 10 + (c.toNat - '0'.toNat)) 0
    if n < 2 ^ 64 then some n else none

/-- A numeric version component in `Parse`: digits only, no leading zeroes,
within 64 bits. -/
def parseNumIdent (l : List Char) : Option Nat :=
  if l.all Char.isDigit && !leadZero l then parseNatChars l else none

/-- A pre-release identifier (`PRVersion`): numeric or alphanumeric. -/
inductive PRVersion where
  | num (n : Nat)
  | alphanum (s : String)
deriving DecidableEq, Repr

/-- `NewPRVersion`: empty is an error; all-digits parses numerically (leading
zeroes rejected); otherwise the identifier must be alphanumeric. -/
def newPRVersion (l : List Char) : Option PRVersion :=
  if l = [] then none
  else if l.all Char.isDigit then
    if leadZero l then none else (parseNatChars l).map PRVersion.num
  else if l.all isAlphanumGo then some (PRVersion.alphanum (String.mk l))
  else none

/-- A build identifier: non-empty and alphanumeric. -/
def buildIdent (l : List Char) : Option String :=
  if l ≠ [] && l.all isAlphanumGo then some (String.mk l) else none

/-- A parsed semantic version (blang/semver `Version`). -/
structure SemVer where
  major : Nat
  minor : Nat
  patch : Nat
  pre : List PRVersion
  build : List String
deriving DecidableEq, Repr

/-- `strings.IndexRune` split: the part before the first occurrence of `c`,
and, when `c` occurs, the part after it. -/
def splitFirst (c : Char) : List Char → List Char × Option (List Char)
  | [] => ([], none)
  | x :: rest =>
    if x = c then ([], some rest)
    else
      let (b, r) := splitFirst c rest
      (x :: b, r)

/-- blang/semver strict `Parse`. -/
def goParse (l : List Char) : Option SemVer :=
  if l = [] then none
  else
    match splitN3 l with
    | [p0, p1, p2] => do
      let major ← parseNumIdent p0
      let minor ← parseNumIdent p1
      let (beforeBuild, buildRest) := splitFirst '+' p2
      let (patchChars, preRest) := splitFirst '-' beforeBuild
      let patch ← parseNumIdent patchChars
      let preList ←
        match preRest with
        | none => some []
        | some ps => (splitDotAll ps).mapM newPRVersion
      let buildList ←
        match buildRest with
        | none => some []
        | some bs => (splitDotAll bs).mapM buildIdent
      some ⟨major, minor, patch, preList, buildList⟩
    | _ => none

/-- The per-part normalization loop of `ParseTolerant`: remove leading zeroes,
then restore a single `0` when the part became empty or no longer starts with
a digit. -/
def tolerantFixPart (p : List Char) : List Char :=
  if p.length > 1 then
    let q := trimLeadZeros p
    match q with
    | [] => ['0']
    | c :: _ => if c.isDigit then q else '0' :: q
  else p

/-- blang/semver `ParseTolerant`: trim spaces, strip a leading `v`, normalize
leading zeroes, pad a short version with `0` components (rejecting short
versions carrying pre-release or build data), then parse strictly. -/
def parseTolerantChars (s0 : List Char) : Option SemVer :=
  let s1 := trimSpaceChars s0
  let s2 := match s1 with
    | 'v' :: rest => rest
    | l => l
  let parts := (splitN3 s2).map tolerantFixPart
  if parts.length < 3 then
    match parts.getLast? with
    | none => none
    | some lastp =>
      if lastp.any (fun c => c = '+' || c = '-') then none
      else goParse (joinDots (parts ++ List.replicate (3 - parts.length) ['0']))
  else goParse (joinDots parts)

/-- `semver.ParseTolerant` on a string. -/
def parseTolerant (s : String) : Option SemVer :=
  parseTolerantChars s.data

/-- `PRVersion.Compare`: numeric identifiers sort below alphanumeric ones;
like kinds compare componentwise. -/
def prCompare : PRVersion → PRVersion → Ordering
  | .num a, .num b => compare a b
  | .num _, .alphanum _ => .lt
  | .alphanum _, .num _ => .gt
  | .alphanum a, .alphanum b =>
    if a = b then .eq else if a < b then .lt else .gt

/-- The pre-release list loop of `Version.Compare`: componentwise, a strict
extension sorts above. -/
def preCompare : List PRVersion → List PRVersion → Ordering
  | [], [] => .eq
  | [], _ :: _ => .lt
  | _ :: _, [] => .gt
  | a :: as, b :: bs =>
    match prCompare a b with
    | .eq => preCompare as bs
    | o => o

/-- `Version.Compare`: major, minor, patch, then pre-release, where a version
without pre-release data sorts above one with it. -/
def semverCompare (a b : SemVer) : Ordering :=
  match compare a.major b.major with
  | .eq =>
    match compare a.minor b.minor with
    | .eq =>
      match compare a.patch b.patch with
      | .eq =>
        match a.pre, b.pre with
        | [], [] => .eq
        | [], _ :: _ => .gt
        | _ :: _, [] => .lt
        | _, _ => preCompare a.pre b.pre
      | o => o
    | o => o
  | o => o

/-- `Version.LT`. -/
def semverLT (a b : SemVer) : Bool :=
  match semverCompare a b with
  | .lt => true
  | _ => false

/-- `Version.GTE`. -/
def semverGTE (a b : SemVer) : Bool :=
  match semverCompare a b with
  | .lt => false
  | _ => true

/-- `semver.MustParse("1.3.4")`, the minimum supported containerd version. -/
def v134 : SemVer := ⟨1, 3, 4, [], []⟩

/-- `semver.MustParse("1.3.8")`, the URL-template threshold. -/
def v138 : SemVer := ⟨1, 3, 8, [], []⟩

/-! ## The containerd resolver (`upup/pkg/fi/cloudup/containerd.go`) -/

/-- `architectures.Architecture` restricted to the two values the claims
quantify over; the Go `default: unknown arch` branches are unreachable on
this closed type. -/
inductive Arch where
  | amd64
  | arm64
deriving DecidableEq, Repr

/-- The typed identity of each `fmt.Errorf` site of `containerd.go`: one
constructor per error message, carrying the formatted arguments. -/
inductive Err where
  | missingConfig
  | missingVersion
  | invalidVersion (version : String)
  | unsupportedLegacy (version : String)
  | unknownArch (arch : Arch)
  | unknownUrl (arch : Arch) (version : String)
  | unknownHash (arch : Arch) (version : String)
  | unknownUrlHash (arch : Arch) (version : String)
deriving DecidableEq, Repr

/-- Go map indexing `m[key]` on a literal `map[string]string`: the zero value
`""` on a missing key. -/
def mapGet : List (String × String) → String → String
  | [], _ => ""
  | (k, v) :: rest, key => if key = k then v else mapGet rest key

/-- `containerdVersionUrlAmd64` applied to a version: `fmt.Sprintf` of the
current packages URL template, the version substituted twice. -/
def containerdVersionUrlAmd64 (version : String) : String :=
  "https://github.com/containerd/containerd/releases/download/v" ++ version ++
    "/cri-containerd-cni-" ++ version ++ "-linux-amd64.tar.gz"

/-- `containerdLegacyUrlAmd64` applied to a version: `fmt.Sprintf` of the
legacy packages URL template. -/
def containerdLegacyUrlAmd64 (version : String) : String :=
  "https://storage.googleapis.com/cri-containerd-release/cri-containerd-" ++
    version ++ ".linux-amd64.tar.gz"

/-- `containerdFallbackVersion`: the containerd version whose docker mapping
is used when the selected version has no arm64 path of its own. -/
def containerdFallbackVersion : String := "1.4.6"

/-- `findAllContainerdHashesAmd64`: the static amd64 hash table. -/
def findAllContainerdHashesAmd64 : List (String × String) :=
  [("1.3.4", "4616971c3ad21c24f2f2320fa1c085577a91032a068dd56a41c7c4b71a458087"),
   ("1.3.9", "96663699e0f888fbf232ae6629a367aa7421f6b95044e7ee5d4d4e02841fac75"),
   ("1.3.10", "69e23e49cdf1232d475a77bf7ecd7145ff4a80295154e190125c4d8a20e241da"),
   ("1.4.0", "b379f29417efd583f77e095173d4d0bd6bb001f0081b2a63d152ee7aef653ce1"),
   ("1.4.1", "757efb93a4f3161efc447a943317503d8a7ded5cb4cc0cba3f3318d7ce1542ed"),
   ("1.4.2", "9d0fd5f4d2bc58b345728432b7daac75fc99c1da91afa4f41e6103f618e74012"),
   ("1.4.3", "2697a342e3477c211ab48313e259fd7e32ad1f5ded19320e6a559f50a82bff3d"),
   ("1.4.4", "96641849cb78a0a119223a427dfdc1ade88412ef791a14193212c8c8e29d447b"),
   ("1.4.5", "f8155278fd256526ca9804219e1ee46f5db11c6ddf455086b04c0887c868822a"),
   ("1.4.6", "6ae4763598c9583f8b50605f19d6c7e9ef93c216706465e73dfc84ee6b63a238"),
   ("1.4.7", "daa14638344fe0772f645e190e4d8eb9549b52743364cb8000521490f9e410b8"),
   ("1.4.8", "96e815c9ab664a02dd5be35e31d15890ea6bef04dfaa39f99f14676c3d6561e8"),
   ("1.4.9", "9911479f86012d6eab7e0f532da8f807a8b0f555ee09ef89367d8c31243073bb"),
   ("1.5.0", "aee7b553ab88842fdafe43955757abe746b8e9995b2be55c603f0a236186ff9b"),
   ("1.5.1", "2fd97916b24396c13849cfcd89805170e1ef0265a2f7fce8e74ae044a6a6a169"),
   ("1.5.2", "e7adbb6c6f6e67639460579a8aa991e9ce4de2062ed36d3261e6e4865574d947"),
   ("1.5.3", "32a9bf1b7ab2adbd9d2a16b17bf1aa6e61592938655adfb5114c40d527aa9be7"),
   ("1.5.4", "591e4e087ea2f5007e6c64deb382df58d419b7b6922eab45a1923d843d57615f"),
   ("1.5.5", "45f02cfc65db47cf088c95555906e1dcba7baf5a3fbad3d947dd6b9af476a144")]

/-- `findAllContainerdDockerMappings`: containerd version to docker (bundler)
version. -/
def findAllContainerdDockerMappings : List (String × String) :=
  [("1.3.7", "19.03.13"),
   ("1.3.9", "19.03.14"),
   ("1.4.3", "20.10.0"),
   ("1.4.4", "20.10.6"),
   ("1.4.6", "20.10.7")]

/-- Modelled from the spec: `dockerVersionUrlArm64`, the docker (bundler)
arm64 URL template, lives in the docker resolver file that is not part of the
sampled source; the spec only states that resolution returns "that version's
arm64 docker URL", so the template is modelled as an injective version-indexed
URL. -/
def dockerVersionUrlArm64 (version : String) : String :=
  "docker-arm64-url/" ++ version

/-- Modelled from the spec: `findAllDockerHashesArm64`, the docker (bundler)
arm64 hash table, is not part of the sampled source; the spec states the
bundler is an always-available component, so every mapped bundler version is
given a distinct non-empty digest token. -/
def findAllDockerHashesArm64 : List (String × String) :=
  [("19.03.13", "docker-arm64-hash-19.03.13"),
   ("19.03.14", "docker-arm64-hash-19.03.14"),
   ("20.10.0", "docker-arm64-hash-20.10.0"),
   ("20.10.6", "docker-arm64-hash-20.10.6"),
   ("20.10.7", "docker-arm64-hash-20.10.7")]

/-- Modelled from the spec: `findDockerVersionUrl`, the docker (bundler) URL
resolver, is not part of the sampled source; the spec describes it as the
same algorithm over the bundler's own tables, modelled here for arm64 as its
per-version URL (the amd64 side of the bundler is never reached by the
claims). -/
def findDockerVersionUrl (arch : Arch) (version : String) : Except Err String :=
  match arch with
  | .arm64 => .ok (dockerVersionUrlArm64 version)
  | .amd64 => .ok ("docker-amd64-url/" ++ version)

/-- Modelled from the spec: `findDockerVersionHash`, the docker (bundler)
hash resolver, is not part of the sampled source; modelled as the bundler's
per-architecture table lookup with the usual unknown-hash failure. -/
def findDockerVersionHash (arch : Arch) (version : String) : Except Err String :=
  match arch with
  | .arm64 =>
    if mapGet findAllDockerHashesArm64 version ≠ "" then
      .ok (mapGet findAllDockerHashesArm64 version)
    else .error (.unknownHash arch version)
  | .amd64 => .ok ("docker-amd64-hash-" ++ version)

/-- `findContainerdVersionUrl`. -/
def findContainerdVersionUrl (arch : Arch) (version : String) : Except Err String :=
  match parseTolerant version with
  | none => .error (.invalidVersion version)
  | some sv =>
    if semverLT sv v134 then .error (.unsupportedLegacy version)
    else
      let u : String :=
        match arch with
        | .amd64 =>
          if semverGTE sv v138 then containerdVersionUrlAmd64 version
          else containerdLegacyUrlAmd64 version
        | .arm64 =>
          if mapGet findAllContainerdHashesAmd64 version ≠ "" then
            if mapGet findAllContainerdDockerMappings version ≠ "" then
              dockerVersionUrlArm64 (mapGet findAllContainerdDockerMappings version)
            else
              dockerVersionUrlArm64
                (mapGet findAllContainerdDockerMappings containerdFallbackVersion)
          else ""
      if u = "" then .error (.unknownUrl arch version) else .ok u

/-- `findContainerdVersionHash`. -/
def findContainerdVersionHash (arch : Arch) (version : String) : Except Err String :=
  match parseTolerant version with
  | none => .error (.invalidVersion version)
  | some sv =>
    if semverLT sv v134 then .error (.unsupportedLegacy version)
    else
      let h : String :=
        match arch with
        | .amd64 => mapGet findAllContainerdHashesAmd64 version
        | .arm64 =>
          if mapGet findAllContainerdHashesAmd64 version ≠ "" then
            if mapGet findAllContainerdDockerMappings version ≠ "" then
              mapGet findAllDockerHashesArm64
                (mapGet findAllContainerdDockerMappings version)
            else
              mapGet findAllDockerHashesArm64
                (mapGet findAllContainerdDockerMappings containerdFallbackVersion)
          else ""
      if h = "" then .error (.unknownHash arch version) else .ok h

/-- `findContainerdVersionUrlHash`: native amd64-table hit resolves the
containerd URL and hash; otherwise the docker mapping is consulted and the
bundler resolved; otherwise the unknown-asset error. -/
def findContainerdVersionUrlHash (arch : Arch) (version : String) :
    Except Err (String × String) :=
  if mapGet findAllContainerdHashesAmd64 version ≠ "" then
    match findContainerdVersionUrl arch version with
    | .error e => .error e
    | .ok u =>
      match findContainerdVersionHash arch version with
      | .error e => .error e
      | .ok h => .ok (u, h)
  else
    let dv := mapGet findAllContainerdDockerMappings version
    if dv ≠ "" then
      match findDockerVersionUrl arch dv with
      | .error e => .error e
      | .ok u =>
        match findDockerVersionHash arch dv with
        | .error e => .error e
        | .ok h => .ok (u, h)
    else .error (.unknownUrlHash arch version)

/-- `kops.PackagesConfig`: the operator-supplied per-architecture override
URL/hash fields, each a nilable string. -/
structure PackagesConfig where
  urlAmd64 : Option String
  hashAmd64 : Option String
  urlArm64 : Option String
  hashArm64 : Option String
deriving DecidableEq, Repr

/-- The fields of `kops.ContainerdConfig` read by `findContainerdAsset`. -/
structure ContainerdConfig where
  packages : Option PackagesConfig
  version : Option String
deriving DecidableEq, Repr

/-- `fi.StringValue`: a nil string pointer reads as `""`. -/
def stringValue (o : Option String) : String := o.getD ""

/-- Modelled from the spec: `findAssetsUrlHash` (the asset-builder remap) is
not part of the sampled source; the spec states an override or resolved
URL/hash is returned "directly as a single-URL Asset Descriptor", so it is
the identity on the pair. -/
def findAssetsUrlHash (assetUrl assetHash : String) : Except Err (String × String) :=
  .ok (assetUrl, assetHash)

/-- The tail of `findContainerdAsset` past the packages block: read the
version, reject an empty one, resolve it and build the descriptor. -/
def findContainerdAssetVersionPath (containerd : ContainerdConfig) (arch : Arch) :
    Except Err (String × String) :=
  let version := stringValue containerd.version
  if version = "" then .error .missingVersion
  else
    match findContainerdVersionUrlHash arch version with
    | .error e => .error e
    | .ok (u, h) => findAssetsUrlHash u h

/-- `findContainerdAsset` over the containerd section of the cluster spec
(`nil` when the cluster carries no containerd config). -/
def findContainerdAsset (containerd? : Option ContainerdConfig) (arch : Arch) :
    Except Err (String × String) :=
  match containerd? with
  | none => .error .missingConfig
  | some containerd =>
    match containerd.packages with
    | some p =>
      if arch = .amd64 ∧ p.urlAmd64 ≠ none ∧ p.hashAmd64 ≠ none then
        findAssetsUrlHash (stringValue p.urlAmd64) (stringValue p.hashAmd64)
      else if arch = .arm64 ∧ p.urlArm64 ≠ none ∧ p.hashArm64 ≠ none then
        findAssetsUrlHash (stringValue p.urlArm64) (stringValue p.hashArm64)
      else findContainerdAssetVersionPath containerd arch
    | none => findContainerdAssetVersionPath containerd arch

/-! ## The verified fetcher (`download-or-bust` in the nodeup boot script)

The script's effects are made explicit: the state of the target file is an
`Option String` (its content when present), each download attempt is an
oracle call `net url cmd`, and the observable actions are recorded as a
trace of events.  The unbounded `while true` loop is run on explicit fuel,
one unit per full pass over the URL list; running out of fuel leaves the
loop still unfinished (`none`), it is not a failure exit of the script. -/

/-- One entry of the `commands` array of `download-or-bust`: the transfer
tool and whether the invocation requests compressed transfer. -/
structure DownloadCmd where
  tool : String
  compressed : Bool
deriving DecidableEq, Repr

/-- The ordered strategy list built inside the URL loop:
`curl --compressed`, `wget --compression=auto`, plain `curl`, plain `wget`. -/
def downloadCommands : List DownloadCmd :=
  [⟨"curl", true⟩, ⟨"wget", true⟩, ⟨"curl", false⟩, ⟨"wget", false⟩]

/-- Observable actions of the fetcher: a download attempt of one (URL,
command) pair, an `rm -f` of the target file, and a `sleep`. -/
inductive FetchEvent where
  | attempt (url : String) (cmd : DownloadCmd)
  | removeFile
  | sleepSecs (n : Nat)
deriving DecidableEq, Repr

/-- The inner `for cmd in commands` loop for one URL: a failed transfer just
moves on; a transfer whose result fails `validate-hash` is removed (`rm -f`)
and the loop moves on; a verified transfer returns it. -/
def tryCommands (hashFn : String → String) (expected : String)
    (net : String → DownloadCmd → Option String) (url : String) :
    List DownloadCmd → List FetchEvent × Option String
  | [] => ([], none)
  | cmd :: rest =>
    match net url cmd with
    | none =>
      let (evs, r) := tryCommands hashFn expected net url rest
      (.attempt url cmd :: evs, r)
    | some content =>
      if hashFn content = expected then ([.attempt url cmd], some content)
      else
        let (evs, r) := tryCommands hashFn expected net url rest
        (.attempt url cmd :: .removeFile :: evs, r)

/-- The `for url in urls` loop: URLs strictly in order, each with the full
ordered command list, stopping at the first verified download. -/
def tryUrls (hashFn : String → String) (expected : String)
    (net : String → DownloadCmd → Option String) :
    List String → List FetchEvent × Option String
  | [] => ([], none)
  | url :: rest =>
    match tryCommands hashFn expected net url downloadCommands with
    | (evs, some c) => (evs, some c)
    | (evs, none) =>
      let (evs2, r) := tryUrls hashFn expected net rest
      (evs ++ evs2, r)

/-- The outer `while true` loop on fuel: after a full failed pass, sleep 60
seconds and start the next pass. -/
def downloadLoop (hashFn : String → String) (expected : String)
    (net : String → DownloadCmd → Option String) (urls : List String) :
    Nat → List FetchEvent × Option String
  | 0 => ([], none)
  | fuel + 1 =>
    match tryUrls hashFn expected net urls with
    | (evs, some c) => (evs, some c)
    | (evs, none) =>
      let (evs2, r) := downloadLoop hashFn expected net urls fuel
      (evs ++ .sleepSecs 60 :: evs2, r)

/-- `download-or-bust`: when the target file exists and validates, return at
once; when it exists and fails validation, remove it and enter the download
loop; when absent, enter the loop directly. -/
def downloadOrBust (hashFn : String → String)
    (net : String → DownloadCmd → Option String) (existing : Option String)
    (expected : String) (urls : List String) (fuel : Nat) :
    List FetchEvent × Option String :=
  match existing with
  | some content =>
    if hashFn content = expected then ([], some content)
    else
      let (evs, r) := downloadLoop hashFn expected net urls fuel
      (.removeFile :: evs, r)
  | none => downloadLoop hashFn expected net urls fuel

deriving instance DecidableEq for Except

/-- Whether `pat` occurs at the head of `l`. -/
def charsStartWith : List Char → List Char → Bool
  | [], _ => true
  | _ :: _, [] => false
  | p :: ps, c :: cs => p = c && charsStartWith ps cs

/-- Whether `pat` occurs anywhere inside `l`. -/
def charsContain (pat : List Char) : List Char → Bool
  | [] => pat.isEmpty
  | c :: rest => charsStartWith pat (c :: rest) || charsContain pat rest

/-- Substring test on strings. -/
def strContains (s pat : String) : Bool :=
  charsContain pat.data s.data

/-! ## Helper lemmas -/

theorem mapGet_ne_empty_mem (tbl : List (String × String)) (v : String)
    (h : mapGet tbl v ≠ "") : v ∈ tbl.map Prod.fst := by
  induction tbl with
  | nil => exact absurd rfl h
  | cons p rest ih =>
    obtain ⟨k, val⟩ := p
    by_cases hk : v = k
    · simp [hk]
    · simp only [mapGet, if_neg hk] at h
      simp [ih h]

/-- Every key of the amd64 hash table parses tolerantly to a version at or
above 1.3.4. -/
theorem amd64Keys_parse_ge :
    ∀ v ∈ findAllContainerdHashesAmd64.map Prod.fst,
      ((parseTolerant v).isSome &&
        (parseTolerant v).all fun sv => !semverLT sv v134) = true := by decide

/-- Every key of the containerd-to-docker mapping parses tolerantly to a
version at or above 1.3.4. -/
theorem mappingKeys_parse_ge :
    ∀ v ∈ findAllContainerdDockerMappings.map Prod.fst,
      ((parseTolerant v).isSome &&
        (parseTolerant v).all fun sv => !semverLT sv v134) = true := by decide

theorem amd64_lookup_empty_of_bad (v : String)
    (hbad : ((parseTolerant v).isSome &&
        (parseTolerant v).all fun sv => !semverLT sv v134) = false) :
    mapGet findAllContainerdHashesAmd64 v = "" := by
  by_contra h
  have hk := amd64Keys_parse_ge v (mapGet_ne_empty_mem _ _ h)
  simp [hk] at hbad

theorem mappings_lookup_empty_of_bad (v : String)
    (hbad : ((parseTolerant v).isSome &&
        (parseTolerant v).all fun sv => !semverLT sv v134) = false) :
    mapGet findAllContainerdDockerMappings v = "" := by
  by_contra h
  have hk := mappingKeys_parse_ge v (mapGet_ne_empty_mem _ _ h)
  simp [hk] at hbad

/-- When both tables miss, resolution takes the unknown-asset branch. -/
theorem resolve_unknown_of_unmapped (arch : Arch) (v : String)
    (h1 : mapGet findAllContainerdHashesAmd64 v = "")
    (h2 : mapGet findAllContainerdDockerMappings v = "") :
    findContainerdVersionUrlHash arch v = .error (.unknownUrlHash arch v) := by
  simp [findContainerdVersionUrlHash, h1, h2]

/-- The command loop only ever returns content whose hash validates. -/
theorem tryCommands_verified (hashFn : String → String) (expected : String)
    (net : String → DownloadCmd → Option String) (url : String) :
    ∀ (cmds : List DownloadCmd) (c : String),
      (tryCommands hashFn expected net url cmds).2 = some c → hashFn c = expected := by
  intro cmds
  induction cmds with
  | nil => simp [tryCommands]
  | cons cmd rest ih =>
    intro c hc
    rw [tryCommands] at hc
    rcases hnet : net url cmd with _ | content <;> rw [hnet] at hc
    · rcases htr : tryCommands hashFn expected net url rest with ⟨evs, r⟩
      rw [htr] at hc
      simp at hc
      exact ih c (by rw [htr]; exact hc)
    · by_cases hh : hashFn content = expected
      · simp [hh] at hc
        exact hc ▸ hh
      · rcases htr : tryCommands hashFn expected net url rest with ⟨evs, r⟩
        simp [hh, htr] at hc
        exact ih c (by rw [htr]; exact hc)

/-- The URL loop only ever returns content whose hash validates. -/
theorem tryUrls_verified (hashFn : String → String) (expected : String)
    (net : String → DownloadCmd → Option String) :
    ∀ (urls : List String) (c : String),
      (tryUrls hashFn expected net urls).2 = some c → hashFn c = expected := by
  intro urls
  induction urls with
  | nil => simp [tryUrls]
  | cons url rest ih =>
    intro c hc
    rw [tryUrls] at hc
    rcases htc : tryCommands hashFn expected net url downloadCommands with ⟨evs, r⟩
    rw [htc] at hc
    rcases r with _ | c0
    · rcases htr : tryUrls hashFn expected net rest with ⟨evs2, r2⟩
      rw [htr] at hc
      simp at hc
      exact ih c (by rw [htr]; exact hc)
    · simp at hc
      exact hc ▸ tryCommands_verified hashFn expected net url downloadCommands c0
        (by rw [htc])

/-- The retry loop only ever returns content whose hash validates. -/
theorem downloadLoop_verified (hashFn : String → String) (expected : String)
    (net : String → DownloadCmd → Option String) (urls : List String) :
    ∀ (fuel : Nat) (c : String),
      (downloadLoop hashFn expected net urls fuel).2 = some c → hashFn c = expected := by
  intro fuel
  induction fuel with
  | zero => simp [downloadLoop]
  | succ n ih =>
    intro c hc
    rw [downloadLoop] at hc
    rcases htu : tryUrls hashFn expected net urls with ⟨evs, r⟩
    rw [htu] at hc
    rcases r with _ | c0
    · rcases hdl : downloadLoop hashFn expected net urls n with ⟨evs2, r2⟩
      rw [hdl] at hc
      simp at hc
      exact ih c (by rw [hdl]; exact hc)
    · simp at hc
      exact hc ▸ tryUrls_verified hashFn expected net urls c0 (by rw [htu])

/-- When every transfer for a URL fails, its command loop records exactly one
attempt per command, in order, and produces nothing. -/
theorem tryCommands_allFail (hashFn : String → String) (expected : String)
    (net : String → DownloadCmd → Option String) (url : String)
    (hfail : ∀ cmd, net url cmd = none) :
    ∀ cmds : List DownloadCmd,
      tryCommands hashFn expected net url cmds =
        (cmds.map (FetchEvent.attempt url), none) := by
  intro cmds
  induction cmds with
  | nil => rfl
  | cons cmd rest ih => simp [tryCommands, hfail cmd, ih]

/-- When every transfer fails, a full pass records exactly the attempts for
every URL and command, in order, and produces nothing. -/
theorem tryUrls_allFail (hashFn : String → String) (expected : String)
    (net : String → DownloadCmd → Option String)
    (hfail : ∀ u cmd, net u cmd = none) :
    ∀ urls : List String,
      tryUrls hashFn expected net urls =
        ((urls.map fun u => downloadCommands.map (FetchEvent.attempt u)).flatten, none) := by
  intro urls
  induction urls with
  | nil => rfl
  | cons url rest ih =>
    rw [tryUrls, tryCommands_allFail hashFn expected net url (hfail url), ih]
    simp

/-- With the URLs before `good` all failing every transfer, the URL loop
attempts each of them with the full command list, strictly in order, before
the trace of the succeeding URL. -/
theorem tryUrls_preFail (hashFn : String → String) (expected : String)
    (net : String → DownloadCmd → Option String) (good : String)
    (restUrls : List String) (tg : List FetchEvent) (c : String)
    (hgood : tryCommands hashFn expected net good downloadCommands = (tg, some c)) :
    ∀ preUrls : List String, (∀ u ∈ preUrls, ∀ cmd, net u cmd = none) →
      tryUrls hashFn expected net (preUrls ++ good :: restUrls) =
        ((preUrls.map fun u => downloadCommands.map (FetchEvent.attempt u)).flatten ++ tg,
         some c) := by
  intro preUrls
  induction preUrls with
  | nil =>
    intro _
    rw [List.nil_append, tryUrls, hgood]
    simp
  | cons u rest ih =>
    intro hpre
    rw [List.cons_append, tryUrls,
      tryCommands_allFail hashFn expected net u (hpre u (by simp)),
      ih (fun x hx cmd => hpre x (by simp [hx]) cmd)]
    simp

/-- With every transfer failing, each pass of the retry loop replays the same
full attempt trace, sleeps 60 seconds, and starts over; no pass produces
content. -/
theorem downloadLoop_allFail (hashFn : String → String) (expected : String)
    (net : String → DownloadCmd → Option String) (urls : List String)
    (hfail : ∀ u cmd, net u cmd = none) :
    ∀ fuel : Nat,
      downloadLoop hashFn expected net urls fuel =
        ((List.replicate fuel
            ((urls.map fun u => downloadCommands.map (FetchEvent.attempt u)).flatten ++
              [FetchEvent.sleepSecs 60])).flatten, none) := by
  intro fuel
  induction fuel with
  | zero => rfl
  | succ n ih =>
    rw [downloadLoop, tryUrls_allFail hashFn expected net hfail urls, ih]
    simp [List.replicate_succ, List.append_assoc]

/-! ## Claim theorems -/

/-- C1: for either architecture, when the override package carries both a
URL and a hash for that architecture, `findContainerdAsset` returns exactly
that URL and hash as a single-URL descriptor, whatever the version field
holds — the version string and every table are ignored. -/
theorem override_precedence (p : PackagesConfig) (version : Option String)
    (arch : Arch) (u h : String)
    (hu : (match arch with | .amd64 => p.urlAmd64 | .arm64 => p.urlArm64) = some u)
    (hh : (match arch with | .amd64 => p.hashAmd64 | .arm64 => p.hashArm64) = some h) :
    findContainerdAsset (some ⟨some p, version⟩) arch = .ok (u, h) := by
  cases arch
  all_goals simp only [] at hu hh
  all_goals simp [findContainerdAsset, hu, hh, stringValue, findAssetsUrlHash]

/-- C1 witness: a complete amd64 override wins even though version 1.4.9 has
a native table entry. -/
theorem override_precedence_witness :
    findContainerdAsset
      (some ⟨some ⟨some "https://example.com/custom-containerd.tar.gz",
        some "0000000000000000000000000000000000000000000000000000000000000000",
        none, none⟩, some "1.4.9"⟩) .amd64 =
      .ok ("https://example.com/custom-containerd.tar.gz",
        "0000000000000000000000000000000000000000000000000000000000000000") :=
  override_precedence _ _ _ _ _ rfl rfl

/-- C10: an override package that is incomplete for the requested
architecture (its URL or its hash is nil there, in particular when only the
other architecture's fields are set) raises no error: resolution proceeds
exactly as if no override package were present. -/
theorem incomplete_override_falls_through (p : PackagesConfig) (version : Option String)
    (arch : Arch)
    (h : (match arch with | .amd64 => p.urlAmd64 | .arm64 => p.urlArm64) = none ∨
      (match arch with | .amd64 => p.hashAmd64 | .arm64 => p.hashArm64) = none) :
    findContainerdAsset (some ⟨some p, version⟩) arch =
      findContainerdAsset (some ⟨none, version⟩) arch := by
  cases arch
  · rcases h with h | h
    · replace h : p.urlAmd64 = none := h
      simp [findContainerdAsset, h, findContainerdAssetVersionPath]
    · replace h : p.hashAmd64 = none := h
      simp [findContainerdAsset, h, findContainerdAssetVersionPath]
  · rcases h with h | h
    · replace h : p.urlArm64 = none := h
      simp [findContainerdAsset, h, findContainerdAssetVersionPath]
    · replace h : p.hashArm64 = none := h
      simp [findContainerdAsset, h, findContainerdAssetVersionPath]

/-- C10 witness: an override with only arm64 fields set falls through to
version-based resolution for amd64. -/
theorem incomplete_override_falls_through_witness :
    findContainerdAsset
      (some ⟨some ⟨none, none, some "https://example.com/arm64.tar.gz",
        some "1111111111111111111111111111111111111111111111111111111111111111"⟩,
        some "1.4.9"⟩) .amd64 =
      findContainerdAsset (some ⟨none, some "1.4.9"⟩) .amd64 :=
  incomplete_override_falls_through _ _ _ (Or.inl rfl)

/-- C2 counterexample: version 1.6.0 parses, has no fallback-mapping entry
(and no native entry), yet arm64 resolution fails with the unknown-asset
error instead of substituting the default fallback version 1.4.6 and
resolving docker 20.10.7. -/
theorem fallback_default_counterexample :
    mapGet findAllContainerdDockerMappings "1.6.0" = "" ∧
    parseTolerant "1.6.0" = some ⟨1, 6, 0, [], []⟩ ∧
    findContainerdVersionUrlHash .arm64 "1.6.0" =
      .error (.unknownUrlHash .arm64 "1.6.0") ∧
    findContainerdVersionUrlHash .arm64 "1.6.0" ≠
      .ok (dockerVersionUrlArm64 "20.10.7", mapGet findAllDockerHashesArm64 "20.10.7") := by
  refine ⟨rfl, rfl, rfl, ?_⟩
  decide

/-- C2 (amended): on arm64 the default-fallback substitution happens only for
versions that are present in the (amd64) native hash table but absent from
the fallback mapping — there resolution returns docker 20.10.7's arm64 URL
and hash (the mapping of the fixed default 1.4.6); a version absent from both
the native table and the fallback mapping fails immediately with the
unknown-asset error, with no default-fallback substitution. -/
theorem fallback_default_amended :
    (∀ v : String, mapGet findAllContainerdHashesAmd64 v ≠ "" →
        mapGet findAllContainerdDockerMappings v = "" →
        findContainerdVersionUrlHash .arm64 v =
          .ok (dockerVersionUrlArm64 "20.10.7",
            mapGet findAllDockerHashesArm64 "20.10.7")) ∧
    (∀ v : String, mapGet findAllContainerdHashesAmd64 v = "" →
        mapGet findAllContainerdDockerMappings v = "" →
        findContainerdVersionUrlHash .arm64 v =
          .error (.unknownUrlHash .arm64 v)) := by
  constructor
  · intro v h1 h2
    have hm := mapGet_ne_empty_mem _ _ h1
    simp [findAllContainerdHashesAmd64] at hm
    rcases hm with rfl | rfl | rfl | rfl | rfl | rfl | rfl | rfl | rfl | rfl |
      rfl | rfl | rfl | rfl | rfl | rfl | rfl | rfl | rfl
    all_goals first
      | exact absurd h2 (by decide)
      | rfl
  · intro v h1 h2
    exact resolve_unknown_of_unmapped .arm64 v h1 h2

/-- C2 witness: version 1.5.0 is in the native table with no fallback-mapping
entry, so arm64 resolution lands on docker 20.10.7; version 1.6.0 is in
neither and fails. -/
theorem fallback_default_amended_witness :
    findContainerdVersionUrlHash .arm64 "1.5.0" =
      .ok (dockerVersionUrlArm64 "20.10.7",
        mapGet findAllDockerHashesArm64 "20.10.7") ∧
    findContainerdVersionUrlHash .arm64 "1.6.0" =
      .error (.unknownUrlHash .arm64 "1.6.0") :=
  ⟨fallback_default_amended.1 "1.5.0" (by decide) rfl,
   fallback_default_amended.2 "1.6.0" rfl rfl⟩

/-- C3 counterexample: version 1.3.0 parses tolerantly strictly below the
1.3.4 minimum, yet amd64 resolution fails with the unknown-asset error, not
the unsupported-legacy-version error. -/
theorem legacy_floor_counterexample :
    parseTolerant "1.3.0" = some ⟨1, 3, 0, [], []⟩ ∧
    semverLT ⟨1, 3, 0, [], []⟩ v134 = true ∧
    findContainerdVersionUrlHash .amd64 "1.3.0" =
      .error (.unknownUrlHash .amd64 "1.3.0") ∧
    findContainerdVersionUrlHash .amd64 "1.3.0" ≠
      .error (.unsupportedLegacy "1.3.0") := by
  refine ⟨rfl, rfl, rfl, ?_⟩
  decide

/-- C3 (amended): a version parsing tolerantly strictly below the 1.3.4
minimum (with no applicable override) always fails, for either architecture —
but through `findContainerdVersionUrlHash` the failure is the unknown-asset
error, because such a version is never a table key and the table lookups come
first; the legacy-floor check with its unsupported-legacy-version error lives
in the helpers `findContainerdVersionUrl` and `findContainerdVersionHash`,
which reject such versions regardless of architecture when called. -/
theorem legacy_floor_amended :
    (∀ (arch : Arch) (v : String) (sv : SemVer),
        parseTolerant v = some sv → semverLT sv v134 = true →
        findContainerdVersionUrlHash arch v = .error (.unknownUrlHash arch v)) ∧
    (∀ (arch : Arch) (v : String) (sv : SemVer),
        parseTolerant v = some sv → semverLT sv v134 = true →
        findContainerdVersionUrl arch v = .error (.unsupportedLegacy v) ∧
        findContainerdVersionHash arch v = .error (.unsupportedLegacy v)) := by
  constructor
  · intro arch v sv hp hlt
    have hbad : ((parseTolerant v).isSome &&
        (parseTolerant v).all fun s => !semverLT s v134) = false := by
      rw [hp]
      simp [Option.all, hlt]
    exact resolve_unknown_of_unmapped arch v
      (amd64_lookup_empty_of_bad v hbad) (mappings_lookup_empty_of_bad v hbad)
  · intro arch v sv hp hlt
    constructor
    · simp [findContainerdVersionUrl, hp, hlt]
    · simp [findContainerdVersionHash, hp, hlt]

/-- C3 witness: version 1.2.0 is below the minimum on both architectures; the
top level resolves to the unknown-asset error and the helpers to the
unsupported-legacy error. -/
theorem legacy_floor_amended_witness :
    findContainerdVersionUrlHash .amd64 "1.2.0" =
      .error (.unknownUrlHash .amd64 "1.2.0") ∧
    findContainerdVersionUrl .arm64 "1.2.0" = .error (.unsupportedLegacy "1.2.0") := by
  constructor
  · exact legacy_floor_amended.1 .amd64 "1.2.0" ⟨1, 2, 0, [], []⟩ rfl rfl
  · exact (legacy_floor_amended.2 .arm64 "1.2.0" ⟨1, 2, 0, [], []⟩ rfl rfl).1

/-- C4 counterexample: the string `abc` is not tolerantly parseable, yet
amd64 resolution fails with the unknown-asset error, not the
invalid-version error — the table lookups happen before any parse. -/
theorem invalid_version_counterexample :
    parseTolerant "abc" = none ∧
    findContainerdVersionUrlHash .amd64 "abc" =
      .error (.unknownUrlHash .amd64 "abc") ∧
    findContainerdVersionUrlHash .amd64 "abc" ≠
      .error (.invalidVersion "abc") := by
  refine ⟨rfl, rfl, ?_⟩
  decide

/-- C4 (amended): an unparseable version string (with no applicable override)
always fails, for either architecture — but through
`findContainerdVersionUrlHash` the failure is the unknown-asset error,
because an unparseable string is never a table key and the table lookups come
first, so the parse step is never reached there; the invalid-version error
lives in the helpers `findContainerdVersionUrl` and
`findContainerdVersionHash`, which reject unparseable versions when called. -/
theorem invalid_version_amended :
    (∀ (arch : Arch) (v : String), parseTolerant v = none →
        findContainerdVersionUrlHash arch v = .error (.unknownUrlHash arch v)) ∧
    (∀ (arch : Arch) (v : String), parseTolerant v = none →
        findContainerdVersionUrl arch v = .error (.invalidVersion v) ∧
        findContainerdVersionHash arch v = .error (.invalidVersion v)) := by
  constructor
  · intro arch v hp
    have hbad : ((parseTolerant v).isSome &&
        (parseTolerant v).all fun s => !semverLT s v134) = false := by
      rw [hp]
      rfl
    exact resolve_unknown_of_unmapped arch v
      (amd64_lookup_empty_of_bad v hbad) (mappings_lookup_empty_of_bad v hbad)
  · intro arch v hp
    constructor
    · simp [findContainerdVersionUrl, hp]
    · simp [findContainerdVersionHash, hp]

/-- C4 witness: the unparseable string `not-a-version` fails with the
unknown-asset error at the top level and the invalid-version error in the
URL helper. -/
theorem invalid_version_amended_witness :
    findContainerdVersionUrlHash .arm64 "not-a-version" =
      .error (.unknownUrlHash .arm64 "not-a-version") ∧
    findContainerdVersionUrl .amd64 "not-a-version" =
      .error (.invalidVersion "not-a-version") := by
  constructor
  · exact invalid_version_amended.1 .arm64 "not-a-version" rfl
  · exact (invalid_version_amended.2 .amd64 "not-a-version" rfl).1

/-- C5: for every amd64 version string in the native hash table, a tolerant
parse at or above 1.3.8 yields the current-template URL and a parse strictly
below 1.3.8 (but at or above 1.3.4) the legacy-template URL, in both cases
paired with that exact version string's native-table hash. -/
theorem template_switch (v : String) (sv : SemVer)
    (hmem : mapGet findAllContainerdHashesAmd64 v ≠ "")
    (hp : parseTolerant v = some sv) :
    (semverGTE sv v138 = true →
      findContainerdVersionUrlHash .amd64 v =
        .ok (containerdVersionUrlAmd64 v, mapGet findAllContainerdHashesAmd64 v)) ∧
    (semverLT sv v138 = true → semverGTE sv v134 = true →
      findContainerdVersionUrlHash .amd64 v =
        .ok (containerdLegacyUrlAmd64 v, mapGet findAllContainerdHashesAmd64 v)) := by
  have hm := mapGet_ne_empty_mem _ _ hmem
  simp [findAllContainerdHashesAmd64] at hm
  rcases hm with rfl | rfl | rfl | rfl | rfl | rfl | rfl | rfl | rfl | rfl |
    rfl | rfl | rfl | rfl | rfl | rfl | rfl | rfl | rfl
  all_goals injection hp with h
  all_goals subst h
  all_goals decide

/-- C5 witness: version 1.4.7 (at or above 1.3.8) resolves through the
current template and version 1.3.4 (below 1.3.8) through the legacy
template, each with its own native-table hash. -/
theorem template_switch_witness :
    findContainerdVersionUrlHash .amd64 "1.4.7" =
      .ok (containerdVersionUrlAmd64 "1.4.7",
        "daa14638344fe0772f645e190e4d8eb9549b52743364cb8000521490f9e410b8") ∧
    findContainerdVersionUrlHash .amd64 "1.3.4" =
      .ok (containerdLegacyUrlAmd64 "1.3.4",
        "4616971c3ad21c24f2f2320fa1c085577a91032a068dd56a41c7c4b71a458087") :=
  ⟨(template_switch "1.4.7" ⟨1, 4, 7, [], []⟩ (by decide) rfl).1 rfl,
   (template_switch "1.3.4" ⟨1, 3, 4, [], []⟩ (by decide) rfl).2 rfl rfl⟩

/-- C6: resolving containerd on arm64 at version 1.4.3 (no native arm64
builds exist) routes through the fallback mapping entry 1.4.3 to docker
20.10.0 and returns that docker version's arm64 URL and hash. -/
theorem concrete_fallback_scenario :
    mapGet findAllContainerdDockerMappings "1.4.3" = "20.10.0" ∧
    findContainerdVersionUrlHash .arm64 "1.4.3" =
      .ok (dockerVersionUrlArm64 "20.10.0",
        mapGet findAllDockerHashesArm64 "20.10.0") :=
  ⟨rfl, rfl⟩

/-- C7: resolving containerd on amd64 at version 1.4.9 succeeds with the
documented hash and a current-template URL whose text contains `v1.4.9`. -/
theorem concrete_native_scenario :
    findContainerdVersionUrlHash .amd64 "1.4.9" =
      .ok (containerdVersionUrlAmd64 "1.4.9",
        "9911479f86012d6eab7e0f532da8f807a8b0f555ee09ef89367d8c31243073bb") ∧
    strContains (containerdVersionUrlAmd64 "1.4.9") "v1.4.9" = true := by
  refine ⟨rfl, ?_⟩
  decide

/-- C8: when the target file already exists with the expected hash, the
fetcher returns it at once with an empty trace — no download attempt, no
network activity; when it exists with a different hash, the fetcher first
removes it and then runs the download loop, and anything the loop returns
hashes to the expected value. -/
theorem fetcher_check_existing (hashFn : String → String)
    (net : String → DownloadCmd → Option String) (content expected : String)
    (urls : List String) (fuel : Nat) :
    (hashFn content = expected →
      downloadOrBust hashFn net (some content) expected urls fuel =
        ([], some content)) ∧
    (hashFn content ≠ expected →
      downloadOrBust hashFn net (some content) expected urls fuel =
        (FetchEvent.removeFile :: (downloadLoop hashFn expected net urls fuel).1,
          (downloadLoop hashFn expected net urls fuel).2) ∧
      ∀ c, (downloadOrBust hashFn net (some content) expected urls fuel).2 = some c →
        hashFn c = expected) := by
  constructor
  · intro hh
    simp [downloadOrBust, hh]
  · intro hh
    rcases hdl : downloadLoop hashFn expected net urls fuel with ⟨evs, r⟩
    constructor
    · simp [downloadOrBust, hh, hdl]
    · intro c hc
      simp [downloadOrBust, hh, hdl] at hc
      exact downloadLoop_verified hashFn expected net urls fuel c (by rw [hdl]; exact hc)

/-- C8 witness: a pre-existing file with the right hash is returned with an
empty trace; a pre-existing file with the wrong hash is removed before the
loop runs. -/
theorem fetcher_check_existing_witness :
    downloadOrBust (fun s => s) (fun _ _ => none) (some "h") "h" ["u"] 1 =
      ([], some "h") ∧
    downloadOrBust (fun s => s) (fun _ _ => none) (some "x") "h" [] 0 =
      ([FetchEvent.removeFile], none) := by
  constructor
  · exact (fetcher_check_existing (fun s => s) (fun _ _ => none) "h" "h" ["u"] 1).1 rfl
  · exact ((fetcher_check_existing (fun s => s) (fun _ _ => none) "x" "h" [] 0).2
      (by decide)).1

/-- C9: with every transfer failing for the URLs before `good` and the
command loop at `good` producing a verified download, a single pass succeeds
having attempted every earlier URL with the full ordered command list,
strictly before `good`; what is returned always hashes to the expected
value; the command list holds both compressed and uncompressed invocations;
a download that fails verification is removed and the loop moves on; and
when everything fails, every pass replays the full attempt trace, sleeps 60
seconds and starts over, producing nothing, for any number of passes. -/
theorem mirror_fallback (hashFn : String → String) (expected : String)
    (net : String → DownloadCmd → Option String)
    (preUrls : List String) (good : String) (restUrls : List String)
    (tg : List FetchEvent) (c : String)
    (hpre : ∀ u ∈ preUrls, ∀ cmd, net u cmd = none)
    (hgood : tryCommands hashFn expected net good downloadCommands = (tg, some c)) :
    tryUrls hashFn expected net (preUrls ++ good :: restUrls) =
      ((preUrls.map fun u => downloadCommands.map (FetchEvent.attempt u)).flatten ++ tg,
        some c) ∧
    hashFn c = expected ∧
    ((downloadCommands.any fun d => d.compressed) = true ∧
      (downloadCommands.any fun d => !d.compressed) = true) ∧
    (∀ (url : String) (cmd : DownloadCmd) (cmds : List DownloadCmd) (body : String),
        net url cmd = some body → hashFn body ≠ expected →
        tryCommands hashFn expected net url (cmd :: cmds) =
          (FetchEvent.attempt url cmd :: FetchEvent.removeFile ::
            (tryCommands hashFn expected net url cmds).1,
            (tryCommands hashFn expected net url cmds).2)) ∧
    (∀ (net2 : String → DownloadCmd → Option String) (urls2 : List String) (fuel : Nat),
        (∀ u cmd, net2 u cmd = none) →
        downloadLoop hashFn expected net2 urls2 fuel =
          ((List.replicate fuel
              ((urls2.map fun u => downloadCommands.map (FetchEvent.attempt u)).flatten ++
                [FetchEvent.sleepSecs 60])).flatten, none)) := by
  refine ⟨tryUrls_preFail hashFn expected net good restUrls tg c hgood preUrls hpre,
    tryCommands_verified hashFn expected net good downloadCommands c (by rw [hgood]),
    by decide, ?_, ?_⟩
  · intro url cmd cmds body hnet hh
    rcases htc : tryCommands hashFn expected net url cmds with ⟨evs, r⟩
    simp [tryCommands, hnet, hh, htc]
  · intro net2 urls2 fuel hfail
    exact downloadLoop_allFail hashFn expected net2 urls2 hfail fuel

/-- C9 witness: with two dead mirrors before a good one, the pass attempts
all four commands on each dead mirror, in order, then succeeds on the good
one with its first command. -/
theorem mirror_fallback_witness :
    tryUrls (fun s => s) "h" (fun u _ => if u = "good" then some "h" else none)
      ["bad1", "bad2", "good"] =
      ([FetchEvent.attempt "bad1" ⟨"curl", true⟩, FetchEvent.attempt "bad1" ⟨"wget", true⟩,
        FetchEvent.attempt "bad1" ⟨"curl", false⟩, FetchEvent.attempt "bad1" ⟨"wget", false⟩,
        FetchEvent.attempt "bad2" ⟨"curl", true⟩, FetchEvent.attempt "bad2" ⟨"wget", true⟩,
        FetchEvent.attempt "bad2" ⟨"curl", false⟩, FetchEvent.attempt "bad2" ⟨"wget", false⟩,
        FetchEvent.attempt "good" ⟨"curl", true⟩], some "h") := by
  have hw := (mirror_fallback (fun s => s) "h"
      (fun u _ => if u = "good" then some "h" else none)
      ["bad1", "bad2"] "good" [] [FetchEvent.attempt "good" ⟨"curl", true⟩] "h"
      (by
        intro u hu cmd
        simp only [List.mem_cons, List.not_mem_nil, or_false] at hu
        rcases hu with rfl | rfl
        · rfl
        · rfl)
      rfl).1
  simpa [downloadCommands] using hw

end KopsAssets
